import Mathlib

/-!
# Verification of the in-memory relation & deferred-commit engine

The repository ships only its test suite under `src/`; the library code
(the cluster form binding layer, the in-memory relation collections, the
cluster graph root with its serialization, and the deferred-commit
reconciler) is not present.  Every definition below carrying a
`Modelled from the spec:` doc comment is therefore a shallow embedding
built from the specification's words, and the claims are settled against
these definitions.
-/

namespace Modelcluster

/-- Modelled from the spec: scalar field values are "restricted to
primitive/date-like scalars representable in both in-memory and transport
form".  We model strings, integers, calendar dates and the null value. -/
inductive Scalar where
  | str (s : String)
  | int (n : Int)
  | date (y m d : Nat)
  | null
deriving DecidableEq, Repr

/-- Modelled from the spec: the kind of a declared scalar field, consumed by
field-level validation (the spec's example of a malformed value is a
malformed date, so dates validate structurally). -/
inductive FieldKind where
  | str
  | date
deriving DecidableEq, Repr

/-- Gregorian leap-year rule, used to validate submitted dates. -/
def isLeap (y : Nat) : Bool :=
  (y % 4 == 0 && y % 100 != 0) || y % 400 == 0

/-- Number of days in a month, used to validate submitted dates. -/
def daysInMonth (y m : Nat) : Nat :=
  if m = 2 then (if isLeap y then 29 else 28)
  else if m = 4 ∨ m = 6 ∨ m = 9 ∨ m = 11 then 30
  else 31

/-- Numeric value of a decimal digit character, if it is one. -/
def digitVal (c : Char) : Option Nat :=
  if '0' ≤ c ∧ c ≤ '9' then some (c.toNat - '0'.toNat) else none

/-- Accumulate the decimal value of a digit string; any non-digit makes
the numeral malformed. -/
def digitsToNat : List Char → Nat → Option Nat
  | [], acc => some acc
  | c :: cs, acc =>
    match digitVal c with
    | some d => digitsToNat cs (acc * 10 + d)
    | none => none

/-- Parse a non-empty all-digit character run as a number. -/
def numFromChars : List Char → Option Nat
  | [] => none
  | cs => digitsToNat cs 0

/-- Parse a decimal numeral; an empty or non-numeric string is
malformed. -/
def strToNat (s : String) : Option Nat :=
  numFromChars s.data

/-- Split a character list at every dash. -/
def splitDash : List Char → List Char → List (List Char)
  | [], cur => [cur.reverse]
  | c :: rest, cur =>
      if c = '-' then cur.reverse :: splitDash rest []
      else splitDash rest (c :: cur)

/-- Modelled from the spec: parsing a submitted `YYYY-MM-DD` date string;
a structurally impossible date (such as `1963-02-31`) is a validation
failure for the field. -/
def parseDate (s : String) : Option Scalar :=
  match splitDash s.data [] with
  | [ys, ms, ds] =>
    match numFromChars ys, numFromChars ms, numFromChars ds with
    | some y, some m, some d =>
        if 1 ≤ m ∧ m ≤ 12 ∧ 1 ≤ d ∧ d ≤ daysInMonth y m then
          some (.date y m d)
        else none
    | _, _, _ => none
  | _ => none

/-- Modelled from the spec: field-level validation of one raw submitted
value ("malformed scalar field" is a validation failure; a blank value
fails only for a required field). -/
def parseField (kind : FieldKind) (req : Bool) (raw : String) : Option Scalar :=
  if raw = "" then
    (if req then none else some .null)
  else
    match kind with
    | .str => some (.str raw)
    | .date => parseDate raw

/-- A declared scalar field of an entity type: name, kind and whether a
value is required.  Modelled from the spec's "explicit schema descriptor
per entity type: a ... list of (field name, semantic type, required?)". -/
structure FieldSpec where
  name : String
  kind : FieldKind
  req : Bool
deriving DecidableEq, Repr

/-- Association-list lookup used for submission data and scalar fields. -/
def alookup {α : Type} : List (String × α) → String → Option α
  | [], _ => none
  | (k, v) :: rest, key => if k = key then some v else alookup rest key

/-- Association-list update: replaces the value stored under a key, or
appends the binding when the key is absent. -/
def aset {α : Type} : List (String × α) → String → α → List (String × α)
  | [], k, v => [(k, v)]
  | (k', v') :: rest, k, v =>
      if k' = k then (k, v) :: rest else (k', v') :: aset rest k v

/-- Modelled from the spec: a form submission is a flat mapping of
namespaced keys to raw string values ("submission keys namespaced by a
relation/formset name ... each row namespaced by index"). -/
def Submission : Type := List (String × String)

/-- The key of one field of one submitted row: `ns-i-field`. -/
def rowKey (ns : String) (i : Nat) (field : String) : String :=
  ns ++ "-" ++ toString i ++ "-" ++ field

/-- Modelled from the spec: the submission-control (management) block of a
formset, "declaring total submitted rows, initial row count, and a maximum
row cap". -/
structure ManagementForm where
  total : Nat
  initial : Nat
  maxNum : Nat
deriving DecidableEq, Repr

/-- Modelled from the spec: reading the management block for the namespace
`ns` out of a submission; a missing or non-numeric total or initial count
makes the block malformed (`none`).  The maximum row cap defaults when
absent. -/
def parseManagement (data : Submission) (ns : String) : Option ManagementForm :=
  match (alookup data (ns ++ "-TOTAL_FORMS")).bind strToNat,
        (alookup data (ns ++ "-INITIAL_FORMS")).bind strToNat with
  | some t, some i =>
      some ⟨t, i, ((alookup data (ns ++ "-MAX_NUM_FORMS")).bind strToNat).getD 1000⟩
  | _, _ => none

/-- Modelled from the spec: one submitted row, "carrying field values, an
optional identity key, an optional deletion marker key, and an optional
order key". -/
structure SubmittedRow where
  values : List (String × String)
  ident : Option Nat
  deleted : Bool
  order : Option Nat
deriving DecidableEq, Repr

/-- Extract row `i` of the formset namespaced `ns` from the submission:
the declared child fields' raw values, the identity, the deletion marker
and the order marker. -/
def extractRow (data : Submission) (ns : String) (fs : List FieldSpec) (i : Nat) :
    SubmittedRow :=
  { values := fs.map (fun f => (f.name, (alookup data (rowKey ns i f.name)).getD ""))
    ident := (alookup data (rowKey ns i "id")).bind strToNat
    deleted := ((alookup data (rowKey ns i "DELETE")).getD "") ≠ ""
    order := (alookup data (rowKey ns i "ORDER")).bind strToNat }

/-- All rows announced by the management block, in submission (index)
order. -/
def extractRows (data : Submission) (ns : String) (fs : List FieldSpec) (total : Nat) :
    List SubmittedRow :=
  (List.range total).map (extractRow data ns fs)

/-- A row is blank when every submitted field value is empty and it carries
no identity; such a row corresponds to an untouched extra form. -/
def SubmittedRow.isBlank (r : SubmittedRow) : Bool :=
  r.values.all (fun kv => kv.2 = "") && r.ident.isNone

/-- Field-level validation of a whole row: every declared field's raw value
must parse.  Returns the validated (field name, scalar) pairs. -/
def parseRowFields (fs : List FieldSpec) (r : SubmittedRow) :
    Option (List (String × Scalar)) :=
  match fs with
  | [] => some []
  | f :: rest =>
    match parseField f.kind f.req ((alookup r.values f.name).getD ""),
          parseRowFields rest r with
    | some v, some l => some ((f.name, v) :: l)
    | _, _ => none

/-- Modelled from the spec: a row passes validation when it is blank
(ignored), flagged deleted ("rows flagged deleted are exempt from
field-level validation"), or all its fields validate. -/
def rowValid (fs : List FieldSpec) (r : SubmittedRow) : Bool :=
  r.isBlank || r.deleted || (parseRowFields fs r).isSome

/-- Modelled from the spec: a child entity — "a record with an identity
(nullable pre-save), scalar fields, a back-reference field pointing at its
owning root (set only at commit time if previously unset)".  The claims
under verification exercise one level of nesting, so grandchild
collections are not carried on this record. -/
structure Child where
  ident : Option Nat
  backref : Option Nat
  fields : List (String × Scalar)
deriving DecidableEq, Repr

/-- Modelled from the spec: an in-memory Relation Collection — "an ordered
sequence of child entities plus a 'deletion set' of identities staged for
removal". -/
structure Collection where
  items : List Child
  deletions : List Nat
deriving DecidableEq, Repr

/-- Modelled from the spec: the Cluster Graph Root — "has an identity
(primary key, nullable until persisted), a mapping from relation name →
Relation Collection, and arbitrary scalar fields". -/
structure Root where
  ident : Option Nat
  fields : List (String × Scalar)
  rels : List (String × Collection)
deriving DecidableEq, Repr

/-- A declared to-many relation of the parent model: its name, the child
entity's declared fields, and whether an Explicit Order Field is declared
for it. -/
structure RelationSpec where
  name : String
  childFields : List FieldSpec
  hasOrderField : Bool
deriving DecidableEq, Repr

/-- Modelled from the spec: the host model contract — "a model type
exposes declared field names and types" plus its declared to-many
relations. -/
structure ModelSpec where
  fields : List FieldSpec
  relations : List RelationSpec
deriving DecidableEq, Repr

/-- The declared relation of a model with a given name, if any. -/
def relSpecFor (ms : ModelSpec) (name : String) : Option RelationSpec :=
  ms.relations.find? (fun r => r.name = name)

/-- The declared scalar field of a model with a given name, if any. -/
def fieldSpecFor (ms : ModelSpec) (name : String) : Option FieldSpec :=
  ms.fields.find? (fun f => f.name = name)

/-- The collection a root holds for a relation name (empty when the root
never populated it). -/
def relsGet (r : Root) (name : String) : Collection :=
  (alookup r.rels name).getD ⟨[], []⟩

/-- Write a list of validated scalars onto a record's field mapping. -/
def applyValues (flds : List (String × Scalar)) (vals : List (String × Scalar)) :
    List (String × Scalar) :=
  vals.foldl (fun acc kv => aset acc kv.1 kv.2) flds

/-- The first in-memory child of a listing carrying a given persisted
identity. -/
def findChild (items : List Child) (i : Nat) : Option Child :=
  items.find? (fun c => c.ident = some i)

/-- Modelled from the spec: merging submitted rows against the current
in-memory listing — "rows carrying an existing identity update the
matching in-memory child; rows without an identity create new in-memory
children; rows flagged deleted are excluded from the resulting in-memory
listing (and, if they had an identity, implicitly scheduled for deletion)";
blank extra rows are ignored.  Returns the merged listing (each child
paired with its submitted order marker) and the identities staged for
deletion, in submission order. -/
def bindRows (fs : List FieldSpec) (existing : List Child) :
    List SubmittedRow → List (Child × Option Nat) × List Nat
  | [] => ([], [])
  | r :: rest =>
    let (l, ds) := bindRows fs existing rest
    if r.isBlank then (l, ds)
    else if r.deleted then
      (l, match r.ident with
          | some i => i :: ds
          | none => ds)
    else
      match parseRowFields fs r with
      | none => (l, ds)
      | some vals =>
        let base : Child :=
          match r.ident with
          | some i =>
            match findChild existing i with
            | some c => c
            | none => ⟨some i, none, []⟩
          | none => ⟨none, none, []⟩
        (({ base with fields := applyValues base.fields vals }, r.order) :: l, ds)

/-- Ordering of submitted order markers: marked rows sort ascending by
their marker; unmarked rows sort after every marked row. -/
def orderLE : Option Nat → Option Nat → Bool
  | some a, some b => a ≤ b
  | some _, none => true
  | none, some _ => false
  | none, none => true

/-- Stable insertion of a row into a listing sorted by order marker: for
equal markers the inserted row keeps its later submission position. -/
def insertByOrder (p : Child × Option Nat) :
    List (Child × Option Nat) → List (Child × Option Nat)
  | [] => [p]
  | q :: rest =>
      if orderLE p.2 q.2 then p :: q :: rest else q :: insertByOrder p rest

/-- Modelled from the spec: "An explicit order marker per row, if present,
determines the listing order written back to the in-memory collection
regardless of submission order" — a stable sort of the merged listing by
order marker. -/
def sortByOrder : List (Child × Option Nat) → List (Child × Option Nat)
  | [] => []
  | p :: rest => insertByOrder p (sortByOrder rest)

/-- Modelled from the spec: when an Explicit Order Field is declared,
"assign it sequential values matching final listing order", so later
loads reproduce the order. -/
def assignOrder (l : List Child) : List Child :=
  (l.enum).map (fun p => { p.2 with fields := aset p.2.fields "sort_order" (.int p.1) })

/-- Modelled from the spec: the per-relation binding configuration — the
relation to bind and "a list of top-level constructor keyword arguments to
propagate into nested forms" (empty by default: "by default no keyword
arguments propagate"). -/
structure RelConfig where
  relation : String
  inheritKwargs : List String
deriving DecidableEq, Repr

/-- The default configuration for a relation named only by a string in an
explicit formsets list: no keyword-argument propagation. -/
def mkRelConfig (name : String) : RelConfig :=
  ⟨name, []⟩

/-- Modelled from the spec: the form's binding configuration — the root
field subset and "which relations to include/exclude" (an explicit
formsets list, or an exclusion list). -/
structure FormMeta where
  fields : List String
  formsets : Option (List RelConfig)
  excludeFormsets : Option (List String)
deriving DecidableEq, Repr

/-- Modelled from the spec: the relations a nested formset is built for.
An explicit formsets list wins; otherwise an exclusion list keeps every
declared relation not excluded; with neither declared, no nested formsets
are built at all. -/
def configuredRelations (ms : ModelSpec) (meta : FormMeta) : List RelConfig :=
  match meta.formsets with
  | some cfgs => cfgs
  | none =>
    match meta.excludeFormsets with
    | some ex =>
        ms.relations.filterMap
          (fun r => if r.name ∈ ex then none else some (mkRelConfig r.name))
    | none => []

/-- The relation names appearing on the rendered form surface: exactly the
configured formsets'. -/
def renderedRelationNames (ms : ModelSpec) (meta : FormMeta) : List String :=
  (configuredRelations ms meta).map (fun cfg => cfg.relation)

/-- The rendered form surface, as the list of input names it shows: the
top-level scalar fields, then each configured formset's row-0 field keys. -/
def renderedKeys (ms : ModelSpec) (meta : FormMeta) : List String :=
  meta.fields ++
    (configuredRelations ms meta).flatMap
      (fun cfg =>
        match relSpecFor ms cfg.relation with
        | some rs => rs.childFields.map (fun f => rowKey cfg.relation 0 f.name)
        | none => [])

/-- Modelled from the spec: constructor keyword arguments received by a
relation's nested forms — the top-level keyword arguments whose names the
relation's configuration lists in its inherit list ("propagation is
opt-in"). -/
def childFormKwargs (cfg : RelConfig) (kwargs : List (String × String)) :
    List (String × String) :=
  kwargs.filter (fun kv => kv.1 ∈ cfg.inheritKwargs)

/-- Validation of the top-level form's scalar fields against the
submission. -/
def topFieldsValid (ms : ModelSpec) (meta : FormMeta) (data : Submission) : Bool :=
  meta.fields.all (fun fname =>
    match fieldSpecFor ms fname with
    | some f => (parseField f.kind f.req ((alookup data fname).getD "")).isSome
    | none => false)

/-- Modelled from the spec: one nested formset validates when its
management block parses and every announced row passes row validation;
"a missing/malformed submission-control block for an explicitly configured
relation is itself a validation failure". -/
def formsetValid (ms : ModelSpec) (cfg : RelConfig) (data : Submission) : Bool :=
  match relSpecFor ms cfg.relation with
  | none => false
  | some rs =>
    match parseManagement data cfg.relation with
    | none => false
    | some m =>
        (extractRows data cfg.relation rs.childFields m.total).all
          (rowValid rs.childFields)

/-- Modelled from the spec: `is_valid()` — "true only if the top-level
form and every nested formset validate". -/
def isValid (ms : ModelSpec) (meta : FormMeta) (data : Submission) : Bool :=
  topFieldsValid ms meta data &&
    (configuredRelations ms meta).all (fun cfg => formsetValid ms cfg data)

/-- Modelled from the spec: binding one formset's submitted rows into the
relation's current in-memory collection: merge by identity, stage deleted
identities, and, when an Explicit Order Field is declared, stably sort by
the order markers and assign sequential order values. -/
def bindFormset (rs : RelationSpec) (data : Submission) (coll : Collection) :
    Collection :=
  match parseManagement data rs.name with
  | none => coll
  | some m =>
    let rows := extractRows data rs.name rs.childFields m.total
    let (pairs, ds) := bindRows rs.childFields coll.items rows
    let listing :=
      if rs.hasOrderField then assignOrder ((sortByOrder pairs).map Prod.fst)
      else pairs.map Prod.fst
    ⟨listing, coll.deletions ++ ds⟩

/-- One step of writing the formsets' resulting listings back: the
configured relation's collection is replaced (`set` semantics) by the
bound formset result; a configured name with no declared relation changes
nothing. -/
def bindStep (ms : ModelSpec) (data : Submission) (inst : Root)
    (acc : List (String × Collection)) (cfg : RelConfig) :
    List (String × Collection) :=
  match relSpecFor ms cfg.relation with
  | some rs => aset acc cfg.relation (bindFormset rs data (relsGet inst cfg.relation))
  | none => acc

/-- Modelled from the spec: the in-memory effect of a valid form's save —
"writes validated scalar fields onto the root, writes each formset's
resulting listing onto the corresponding Relation Collection via `set`".
Unconfigured relations are untouched. -/
def applyForm (ms : ModelSpec) (meta : FormMeta) (data : Submission) (inst : Root) :
    Root :=
  let flds := meta.fields.foldl
    (fun acc fname =>
      match fieldSpecFor ms fname with
      | some f =>
        match parseField f.kind f.req ((alookup data fname).getD "") with
        | some v => aset acc fname v
        | none => acc
      | none => acc)
    inst.fields
  let rels := (configuredRelations ms meta).foldl (bindStep ms data inst) inst.rels
  { inst with fields := flds, rels := rels }

/-- A persisted child row: identity, the relation (child table) it belongs
to, the back-reference to its owning root, and its scalar fields. -/
structure StoredChild where
  ident : Nat
  rel : String
  backref : Nat
  fields : List (String × Scalar)
deriving DecidableEq, Repr

/-- Modelled from the spec: the external persisted storage the Reconciler
writes to — root rows keyed by identity, child rows per relation, and an
identity counter for newly inserted rows. -/
structure Store where
  nextId : Nat
  roots : List (Nat × List (String × Scalar))
  children : List StoredChild
deriving DecidableEq, Repr

/-- The persisted baseline `B` for a relation of a root: the identities
currently in storage for this relation and back-reference. -/
def baselineFor (s : Store) (relName : String) (rootId : Nat) : List Nat :=
  s.children.filterMap
    (fun c => if c.rel = relName ∧ c.backref = rootId then some c.ident else none)

/-- Persist the deletions of a reconciliation step: remove the given
identities from the relation's child table. -/
def deleteChildren (s : Store) (relName : String) (ids : List Nat) : Store :=
  { s with children :=
      s.children.filter (fun c => !(decide (c.rel = relName) && decide (c.ident ∈ ids))) }

/-- Persist one member of the in-memory listing: an identified child
updates (or, when its row is gone, re-inserts) the stored row; an
unidentified child is inserted under a fresh identity.  The child comes
back with its identity and back-reference assigned. -/
def upsertChild (relName : String) (rootId : Nat) (c : Child) (s : Store) :
    Child × Store :=
  match c.ident with
  | some i =>
    if s.children.any (fun sc => decide (sc.rel = relName) && decide (sc.ident = i)) then
      ({ c with backref := some rootId },
       { s with children :=
           (s.children.map (fun sc =>
             if decide (sc.rel = relName) && decide (sc.ident = i) then
               { sc with backref := rootId, fields := c.fields }
             else sc)) })
    else
      ({ c with backref := some rootId },
       { s with children := s.children ++ [⟨i, relName, rootId, c.fields⟩] })
  | none =>
    ({ c with ident := some s.nextId, backref := some rootId },
     { s with nextId := s.nextId + 1,
              children := s.children ++ [⟨s.nextId, relName, rootId, c.fields⟩] })

/-- Modelled from the spec: the Deferred Commit Reconciler for one
Relation Collection of an already-persisted root: assign order values when
an Explicit Order Field is declared, compute `to_delete` as the persisted
baseline minus the identities still listed, union the explicit deletion
set, persist the deletions, then upsert every listed member not staged for
deletion in listing order, assigning back-references.  Returns the
reconciled collection (identities assigned, deletion set discharged) and
the store. -/
def reconcileCollection (rootId : Nat) (rs : RelationSpec) (coll : Collection)
    (s : Store) : Collection × Store :=
  let items := if rs.hasOrderField then assignOrder coll.items else coll.items
  let memIds := items.filterMap (fun c => c.ident)
  let toDelete :=
    (baselineFor s rs.name rootId).filter (fun i => i ∉ memIds) ++ coll.deletions
  let s1 := deleteChildren s rs.name toDelete
  let step := fun (acc : List Child × Store) (c : Child) =>
    match c.ident with
    | some i =>
      if i ∈ toDelete then acc
      else
        let (c', s') := upsertChild rs.name rootId c acc.2
        (acc.1 ++ [c'], s')
    | none =>
      let (c', s') := upsertChild rs.name rootId c acc.2
      (acc.1 ++ [c'], s')
  let (items', s2) := items.foldl step ([], s1)
  (⟨items', []⟩, s2)

/-- Modelled from the spec: the committing save of a Cluster Graph Root —
"persists the root record itself, then invokes the Reconciler for every
declared relation".  Only collections the root actually holds are
reconciled: a relation the root never materialized or mutated defers to
the store and needs no reconciliation. -/
def rootCommit (ms : ModelSpec) (r : Root) (s : Store) : Root × Store :=
  let pr :=
    match r.ident with
    | some i =>
      (i, { s with roots :=
              if s.roots.any (fun p => decide (p.1 = i)) then
                s.roots.map (fun (p : Nat × List (String × Scalar)) =>
                  if p.1 = i then (i, r.fields) else p)
              else s.roots ++ [(i, r.fields)] })
    | none =>
      (s.nextId, { s with nextId := s.nextId + 1,
                          roots := s.roots ++ [(s.nextId, r.fields)] })
  let rootId := pr.1
  let step := fun (acc : List (String × Collection) × Store)
                  (p : String × Collection) =>
    match relSpecFor ms p.1 with
    | some rs =>
      let (coll', s') := reconcileCollection rootId rs p.2 acc.2
      (aset acc.1 p.1 coll', s')
    | none => acc
  let folded := r.rels.foldl step (r.rels, pr.2)
  ({ r with ident := some rootId, rels := folded.1 }, folded.2)

/-- Modelled from the spec: `save(commit)` on the root — "when
`commit=False`, performs only in-memory normalization ... and returns the
root unpersisted further; when `commit=True` (default), persists the root
record itself, then invokes the Reconciler". -/
def rootSave (ms : ModelSpec) (r : Root) (commit : Bool) (s : Store) : Root × Store :=
  if commit then rootCommit ms r s else (r, s)

/-- Modelled from the spec: `save(commit)` on the bound form — "writes
validated scalar fields onto the root, writes each formset's resulting
listing onto the corresponding Relation Collection via `set`, then
delegates to the Cluster Graph Root's `save`". -/
def formSave (ms : ModelSpec) (meta : FormMeta) (data : Submission) (inst : Root)
    (commit : Bool) (s : Store) : Root × Store :=
  rootSave ms (applyForm ms meta data inst) commit s

mutual
/-- Modelled from the spec: the full in-memory cluster graph used by
whole-graph serialization — an entity has a nullable identity, scalar
fields and named relations, recursively ("children with their own
children"). -/
inductive GNode where
  | mk (ident : Option Nat) (fields : List (String × Scalar)) (rels : GRels)
/-- The named Relation Collections of a graph node: each carries its
ordered children and its deletion set of identities staged for removal. -/
inductive GRels where
  | nil
  | cons (name : String) (children : GChildren) (deletions : List Nat) (rest : GRels)
/-- An ordered list of child graph nodes. -/
inductive GChildren where
  | nil
  | cons (c : GNode) (rest : GChildren)
end

mutual
/-- Modelled from the spec: the serialized tree format — "a nested mapping
with root scalar fields at the top level and, per relation name, an
ordered list of child mappings (recursively shaped the same way)".
Identity fields are carried when present; deletion sets are not part of
the transport form. -/
inductive JNode where
  | mk (ident : Option Nat) (fields : List (String × Scalar)) (rels : JRels)
/-- The per-relation ordered lists of child mappings of a serialized
tree. -/
inductive JRels where
  | nil
  | cons (name : String) (children : JChildren) (rest : JRels)
/-- An ordered list of serialized child trees. -/
inductive JChildren where
  | nil
  | cons (c : JNode) (rest : JChildren)
end

mutual
/-- Modelled from the spec: whole-graph serialization (`to_json`) —
"produces a structured tree — root fields plus, per relation, an ordered
list of child trees (recursively)". -/
def toJson : GNode → JNode
  | .mk i f rels => .mk i f (relsToJson rels)
/-- Serialize every relation of a node; the deletion set has no transport
form and is dropped. -/
def relsToJson : GRels → JRels
  | .nil => .nil
  | .cons n cs _ds rest => .cons n (childrenToJson cs) (relsToJson rest)
/-- Serialize an ordered child list, preserving its order. -/
def childrenToJson : GChildren → JChildren
  | .nil => .nil
  | .cons c rest => .cons (toJson c) (childrenToJson rest)
end

mutual
/-- Modelled from the spec: whole-graph deserialization (`from_json`) —
"reconstructs a Cluster Graph Root and populates its collections from the
tree"; children keep identity fields when present and no deletions are
pending on a freshly deserialized graph. -/
def fromJson : JNode → GNode
  | .mk i f rels => .mk i f (relsFromJson rels)
/-- Deserialize every relation of a tree node, with an empty deletion
set. -/
def relsFromJson : JRels → GRels
  | .nil => .nil
  | .cons n cs rest => .cons n (childrenFromJson cs) [] (relsFromJson rest)
/-- Deserialize an ordered child list, preserving its order. -/
def childrenFromJson : JChildren → GChildren
  | .nil => .nil
  | .cons c rest => .cons (fromJson c) (childrenFromJson rest)
end

mutual
/-- A graph has no unsaved deletions pending when every relation's
deletion set, recursively, is empty. -/
def gnodeClean : GNode → Bool
  | .mk _ _ rels => grelsClean rels
/-- No deletions pending in any of these relations. -/
def grelsClean : GRels → Bool
  | .nil => true
  | .cons _ cs ds rest => ds.isEmpty && gchildrenClean cs && grelsClean rest
/-- No deletions pending in any of these children's graphs. -/
def gchildrenClean : GChildren → Bool
  | .nil => true
  | .cons c rest => gnodeClean c && gchildrenClean rest
end

/-- A sample two-level graph (a persisted root, one persisted child, one
unpersisted child owning its own nested relation) used as a concrete
witness input. -/
def sampleGraph : GNode :=
  .mk (some 1) [("name", .str "The Beatles")]
    (.cons "members"
      (.cons (.mk (some 2) [("name", .str "John Lennon")] .nil)
        (.cons (.mk none [("name", .str "Paul McCartney")]
                 (.cons "instruments"
                   (.cons (.mk none [("name", .str "bass")] .nil) .nil) [] .nil))
          .nil))
      [] .nil)

mutual
theorem fromJson_toJson_node : ∀ (g : GNode), gnodeClean g = true →
    fromJson (toJson g) = g
  | .mk i f rels, h => by
      simp only [gnodeClean] at h
      simp only [toJson, fromJson, relsFromJson_relsToJson rels h]
theorem relsFromJson_relsToJson : ∀ (rs : GRels), grelsClean rs = true →
    relsFromJson (relsToJson rs) = rs
  | .nil, _ => rfl
  | .cons n cs ds rest, h => by
      simp only [grelsClean, Bool.and_eq_true, List.isEmpty_iff] at h
      simp only [relsToJson, relsFromJson, h.1.1,
        childrenFromJson_childrenToJson cs h.1.2, relsFromJson_relsToJson rest h.2]
theorem childrenFromJson_childrenToJson : ∀ (cs : GChildren), gchildrenClean cs = true →
    childrenFromJson (childrenToJson cs) = cs
  | .nil, _ => rfl
  | .cons c rest, h => by
      simp only [gchildrenClean, Bool.and_eq_true] at h
      simp only [childrenToJson, childrenFromJson, fromJson_toJson_node c h.1,
        childrenFromJson_childrenToJson rest h.2]
end

/-- C1: For every graph with no unsaved deletions pending, deserializing
the serialization of the graph yields the graph back — in particular the
same scalar field values, the same relative child ordering per relation,
and the same nesting. -/
theorem c1_serialize_deserialize_round_trip (g : GNode) (h : gnodeClean g = true) :
    fromJson (toJson g) = g :=
  fromJson_toJson_node g h

/-- C1 witness: the round trip evaluated on a concrete two-level graph. -/
theorem c1_serialize_deserialize_round_trip_witness :
    gnodeClean sampleGraph = true ∧ fromJson (toJson sampleGraph) = sampleGraph :=
  ⟨rfl, c1_serialize_deserialize_round_trip sampleGraph rfl⟩

/-! ## Concrete fixtures

A parent model shaped like the test suite's `Band`: one required string
field, an unordered `members` relation, and an `albums` relation with an
Explicit Order Field and a date field. -/

/-- The parent model used by the concrete scenarios. -/
def bandModel : ModelSpec :=
  ⟨[⟨"name", .str, true⟩],
   [⟨"members", [⟨"name", .str, true⟩], false⟩,
    ⟨"albums", [⟨"name", .str, true⟩, ⟨"release_date", .date, false⟩], true⟩]⟩

/-- A binding configuration declaring both relations explicitly. -/
def bandMeta : FormMeta :=
  ⟨["name"], some [mkRelConfig "members", mkRelConfig "albums"], none⟩

/-- A persisted root (identity 1) whose `members` collection holds two
persisted children, as loaded from storage. -/
def c2inst : Root :=
  ⟨some 1, [("name", .str "The Beatles")],
   [("members", ⟨[⟨some 2, some 1, [("name", .str "John Lennon")]⟩,
                  ⟨some 3, some 1, [("name", .str "Paul McCartney")]⟩], []⟩),
    ("albums", ⟨[], []⟩)]⟩

/-- The persisted baseline matching `c2inst`. -/
def c2store : Store :=
  ⟨10, [(1, [("name", .str "The Beatles")])],
   [⟨2, "members", 1, [("name", .str "John Lennon")]⟩,
    ⟨3, "members", 1, [("name", .str "Paul McCartney")]⟩]⟩

/-- A submission deleting the first persisted child, updating the second
by identity, adding one identity-less child, and leaving one extra row
blank. -/
def c2data : Submission :=
  [("name", "The New Beatles"),
   ("members-TOTAL_FORMS", "4"), ("members-INITIAL_FORMS", "2"),
   ("members-MAX_NUM_FORMS", "1000"),
   ("members-0-name", "John Lennon"), ("members-0-DELETE", "1"), ("members-0-id", "2"),
   ("members-1-name", "Paul B. McCartney"), ("members-1-id", "3"),
   ("members-2-name", "George Harrison"), ("members-2-id", ""),
   ("members-3-name", ""), ("members-3-id", ""),
   ("albums-TOTAL_FORMS", "0"), ("albums-INITIAL_FORMS", "0"),
   ("albums-MAX_NUM_FORMS", "1000")]

/-- An unpersisted root used by the ordering scenario. -/
def c3inst : Root :=
  ⟨none, [("name", .str "The Beatles")],
   [("members", ⟨[], []⟩), ("albums", ⟨[], []⟩)]⟩

/-- An empty store. -/
def c3store : Store := ⟨1, [], []⟩

/-- A submission of two albums with explicit order markers 2 and 1, in
that submission order. -/
def c3data : Submission :=
  [("name", "The Beatles"),
   ("members-TOTAL_FORMS", "0"), ("members-INITIAL_FORMS", "0"),
   ("members-MAX_NUM_FORMS", "1000"),
   ("albums-TOTAL_FORMS", "2"), ("albums-INITIAL_FORMS", "0"),
   ("albums-MAX_NUM_FORMS", "1000"),
   ("albums-0-name", "With The Beatles"), ("albums-0-id", ""), ("albums-0-ORDER", "2"),
   ("albums-1-name", "Please Please Me"), ("albums-1-id", ""), ("albums-1-ORDER", "1")]

/-- A persisted root owning one persisted album. -/
def c4inst : Root :=
  ⟨some 1, [("name", .str "The Beatles")],
   [("members", ⟨[], []⟩),
    ("albums", ⟨[⟨some 2, some 1,
      [("name", .str "Please Please Me"), ("release_date", .date 1963 3 22)]⟩], []⟩)]⟩

/-- The persisted baseline matching `c4inst`. -/
def c4store : Store :=
  ⟨10, [(1, [("name", .str "The Beatles")])],
   [⟨2, "albums", 1, [("name", .str "Please Please Me"),
                      ("release_date", .date 1963 3 22)]⟩]⟩

/-- A submission whose only album row is flagged for deletion and carries
an arbitrary (possibly malformed) release-date value. -/
def c4data (bad : String) : Submission :=
  [("name", "The Beatles"),
   ("members-TOTAL_FORMS", "0"), ("members-INITIAL_FORMS", "0"),
   ("members-MAX_NUM_FORMS", "1000"),
   ("albums-TOTAL_FORMS", "1"), ("albums-INITIAL_FORMS", "1"),
   ("albums-MAX_NUM_FORMS", "1000"),
   ("albums-0-name", "With The Beatles"), ("albums-0-release_date", bad),
   ("albums-0-id", "2"), ("albums-0-DELETE", "1")]

/-- The same album row with the malformed date `1963-02-31` but without
the deletion flag. -/
def c4dataKept : Submission :=
  [("name", "The Beatles"),
   ("members-TOTAL_FORMS", "0"), ("members-INITIAL_FORMS", "0"),
   ("members-MAX_NUM_FORMS", "1000"),
   ("albums-TOTAL_FORMS", "1"), ("albums-INITIAL_FORMS", "1"),
   ("albums-MAX_NUM_FORMS", "1000"),
   ("albums-0-name", "With The Beatles"),
   ("albums-0-release_date", "1963-02-31"), ("albums-0-id", "2")]

/-- The submission of `c2data` with the configured `albums` formset's
whole submission-control block omitted. -/
def c5data : Submission :=
  [("name", "The Beatles"),
   ("members-TOTAL_FORMS", "3"), ("members-INITIAL_FORMS", "2"),
   ("members-MAX_NUM_FORMS", "1000"),
   ("members-0-name", "John Lennon"), ("members-0-DELETE", "1"), ("members-0-id", "2"),
   ("members-1-name", "Paul McCartney"), ("members-1-id", "3"),
   ("members-2-name", "George Harrison"), ("members-2-id", "")]

/-- An unpersisted root holding one unpersisted child in `members`. -/
def c6inst : Root :=
  ⟨none, [("name", .str "The Beatles")],
   [("members", ⟨[⟨none, none, [("name", .str "George Harrison")]⟩], []⟩),
    ("albums", ⟨[], []⟩)]⟩

/-- An empty store. -/
def c6store : Store := ⟨1, [], []⟩

/-- A submission deleting the identity-less first row, adding two new
children, and leaving the last extra row blank. -/
def c6data : Submission :=
  [("name", "The Beatles"),
   ("members-TOTAL_FORMS", "4"), ("members-INITIAL_FORMS", "1"),
   ("members-MAX_NUM_FORMS", "1000"),
   ("members-0-name", "George Harrison"), ("members-0-DELETE", "1"), ("members-0-id", ""),
   ("members-1-name", "John Lennon"), ("members-1-id", ""),
   ("members-2-name", "Paul McCartney"), ("members-2-id", ""),
   ("members-3-name", ""), ("members-3-id", ""),
   ("albums-TOTAL_FORMS", "0"), ("albums-INITIAL_FORMS", "0"),
   ("albums-MAX_NUM_FORMS", "1000")]

/-- The in-memory root the `c6data` submission merges into `c6inst`: the
deleted row gone, the two new children listed in submission order, storage
untouched. -/
def c6root : Root :=
  ⟨none, [("name", .str "The Beatles")],
   [("members", ⟨[⟨none, none, [("name", .str "John Lennon")]⟩,
                  ⟨none, none, [("name", .str "Paul McCartney")]⟩], []⟩),
    ("albums", ⟨[], []⟩)]⟩

/-! ## Claim theorems -/

/-- C2: merging a valid submission: a row flagged deleted is excluded from
the listing and its identity staged for deletion; a row carrying an
existing child's identity updates that matching in-memory child; a row
without an identity creates exactly one new in-memory child — and, end to
end on the persisted store, a submission with one identified updated row
and one identity-less new row yields exactly one update and one insert,
never a duplicate. -/
theorem c2_bind_merge_update_insert
    (fs : List FieldSpec) (existing : List Child) (r0 r1 r2 : SubmittedRow)
    (j i : Nat) (c : Child) (vals1 vals2 : List (String × Scalar))
    (h0b : r0.isBlank = false) (h0d : r0.deleted = true) (h0i : r0.ident = some j)
    (h1b : r1.isBlank = false) (h1d : r1.deleted = false) (h1i : r1.ident = some i)
    (h1v : parseRowFields fs r1 = some vals1) (hc : findChild existing i = some c)
    (h2b : r2.isBlank = false) (h2d : r2.deleted = false) (h2i : r2.ident = none)
    (h2v : parseRowFields fs r2 = some vals2) :
    bindRows fs existing [r0, r1, r2] =
      ([({ c with fields := applyValues c.fields vals1 }, r1.order),
        (⟨none, none, applyValues [] vals2⟩, r2.order)], [j]) ∧
    isValid bandModel bandMeta c2data = true ∧
    (formSave bandModel bandMeta c2data c2inst true c2store).2.children =
      [⟨3, "members", 1, [("name", .str "Paul B. McCartney")]⟩,
       ⟨10, "members", 1, [("name", .str "George Harrison")]⟩] := by
  refine ⟨?_, rfl, rfl⟩
  simp [bindRows, h0b, h0d, h0i, h1b, h1d, h1i, h1v, hc, h2b, h2d, h2i, h2v]

/-- C2 witness: the merge evaluated on the concrete deleted/updated/new
row triple of the persisted-band scenario. -/
theorem c2_bind_merge_update_insert_witness :
    bindRows [⟨"name", .str, true⟩]
        [⟨some 2, some 1, [("name", .str "John Lennon")]⟩,
         ⟨some 3, some 1, [("name", .str "Paul McCartney")]⟩]
        [⟨[("name", "John Lennon")], some 2, true, none⟩,
         ⟨[("name", "Paul B. McCartney")], some 3, false, none⟩,
         ⟨[("name", "George Harrison")], none, false, none⟩] =
      ([(⟨some 3, some 1, [("name", .str "Paul B. McCartney")]⟩, none),
        (⟨none, none, [("name", .str "George Harrison")]⟩, none)], [2]) ∧
    isValid bandModel bandMeta c2data = true ∧
    (formSave bandModel bandMeta c2data c2inst true c2store).2.children =
      [⟨3, "members", 1, [("name", .str "Paul B. McCartney")]⟩,
       ⟨10, "members", 1, [("name", .str "George Harrison")]⟩] :=
  c2_bind_merge_update_insert
    [⟨"name", .str, true⟩]
    [⟨some 2, some 1, [("name", .str "John Lennon")]⟩,
     ⟨some 3, some 1, [("name", .str "Paul McCartney")]⟩]
    ⟨[("name", "John Lennon")], some 2, true, none⟩
    ⟨[("name", "Paul B. McCartney")], some 3, false, none⟩
    ⟨[("name", "George Harrison")], none, false, none⟩
    2 3
    ⟨some 3, some 1, [("name", .str "Paul McCartney")]⟩
    [("name", .str "Paul B. McCartney")]
    [("name", .str "George Harrison")]
    rfl rfl rfl rfl rfl rfl rfl rfl rfl rfl rfl rfl

/-- C3: the explicit per-row order marker determines the listing order
regardless of submission order: two rows submitted with markers `o1` and
`o2 < o1` in that order come out `o2`-row first; concretely, after saving
two albums submitted with order values 2 and 1, the relation iterates the
order-1 album first. -/
theorem c3_order_marker_determines_listing
    (a b : Child) (o1 o2 : Nat) (h : o2 < o1) :
    sortByOrder [(a, some o1), (b, some o2)] = [(b, some o2), (a, some o1)] ∧
    isValid bandModel bandMeta c3data = true ∧
    ((relsGet (formSave bandModel bandMeta c3data c3inst true c3store).1 "albums").items.map
        (fun c => alookup c.fields "name")) =
      [some (.str "Please Please Me"), some (.str "With The Beatles")] := by
  refine ⟨?_, rfl, rfl⟩
  simp [sortByOrder, insertByOrder, orderLE, Nat.not_le.mpr h]

/-- C3 witness: the sort evaluated at order markers 2 and 1. -/
theorem c3_order_marker_determines_listing_witness :
    sortByOrder [(⟨none, none, [("name", .str "With The Beatles")]⟩, some 2),
                 (⟨none, none, [("name", .str "Please Please Me")]⟩, some 1)] =
      [(⟨none, none, [("name", .str "Please Please Me")]⟩, some 1),
       (⟨none, none, [("name", .str "With The Beatles")]⟩, some 2)] ∧
    isValid bandModel bandMeta c3data = true ∧
    ((relsGet (formSave bandModel bandMeta c3data c3inst true c3store).1 "albums").items.map
        (fun c => alookup c.fields "name")) =
      [some (.str "Please Please Me"), some (.str "With The Beatles")] :=
  c3_order_marker_determines_listing
    ⟨none, none, [("name", .str "With The Beatles")]⟩
    ⟨none, none, [("name", .str "Please Please Me")]⟩
    2 1 (by decide)

/-- C4: a row flagged for deletion is exempt from field-level validation:
whatever raw value its date field carries, the whole form still validates,
the row is excluded from the saved listing, and on commit the persisted
row is deleted. -/
theorem c4_deleted_row_validation_exempt (bad : String) :
    isValid bandModel bandMeta (c4data bad) = true ∧
    relsGet (applyForm bandModel bandMeta (c4data bad) c4inst) "albums" =
      ⟨[], [2]⟩ ∧
    (formSave bandModel bandMeta (c4data bad) c4inst true c4store).2.children = [] ∧
    isValid bandModel bandMeta c4dataKept = false :=
  ⟨rfl, rfl, rfl, rfl⟩

/-- C5: `is_valid` is true exactly when the top-level form and every
configured nested formset validate; and whenever an explicitly configured
relation's submission-control block is missing or malformed, `is_valid`
reports a validation failure rather than succeeding. -/
theorem c5_is_valid_requires_management_blocks
    (ms : ModelSpec) (meta : FormMeta) (data : Submission) :
    (isValid ms meta data = true ↔
      topFieldsValid ms meta data = true ∧
        ∀ cfg ∈ configuredRelations ms meta, formsetValid ms cfg data = true) ∧
    (∀ cfg ∈ configuredRelations ms meta,
      parseManagement data cfg.relation = none → isValid ms meta data = false) := by
  constructor
  · simp [isValid, List.all_eq_true]
  · intro cfg hmem hparse
    have hf : formsetValid ms cfg data = false := by
      unfold formsetValid
      cases relSpecFor ms cfg.relation <;> simp [hparse]
    cases hall : (configuredRelations ms meta).all (fun k => formsetValid ms k data) with
    | false => simp [isValid, hall]
    | true =>
      have h2 := List.all_eq_true.mp hall cfg hmem
      simp [hf] at h2

/-- C5 witness: the concrete submission omitting the configured `albums`
formset's management block fails validation. -/
theorem c5_is_valid_requires_management_blocks_witness :
    isValid bandModel bandMeta c5data = false :=
  (c5_is_valid_requires_management_blocks bandModel bandMeta c5data).2
    (mkRelConfig "albums") (by decide) rfl

/-- C6: for every form, instance and store, `save(commit=False)` returns
the root with the validated fields and merged listings applied while the
persisted store is left entirely unchanged, and `save(commit=True)` is
exactly the root's committing save invoked on that merged root.
Concretely: the two-member merged root is still absent from the store
after `commit=False`, and the subsequent root save persists the whole
graph. -/
theorem c6_commit_false_leaves_store_unchanged
    (ms : ModelSpec) (meta : FormMeta) (data : Submission) (inst : Root) (s : Store) :
    formSave ms meta data inst false s = (applyForm ms meta data inst, s) ∧
    formSave ms meta data inst true s =
      rootSave ms (formSave ms meta data inst false s).1 true s ∧
    isValid bandModel bandMeta c6data = true ∧
    formSave bandModel bandMeta c6data c6inst false c6store = (c6root, c6store) ∧
    ((relsGet c6root "members").items.map (fun c => alookup c.fields "name")) =
      [some (.str "John Lennon"), some (.str "Paul McCartney")] ∧
    (rootSave bandModel c6root true c6store).2 =
      ⟨4, [(1, [("name", .str "The Beatles")])],
       [⟨2, "members", 1, [("name", .str "John Lennon")]⟩,
        ⟨3, "members", 1, [("name", .str "Paul McCartney")]⟩]⟩ :=
  ⟨rfl, rfl, rfl, rfl, rfl, rfl⟩

/-- Updating one key of an association list leaves every other key's
lookup unchanged. -/
theorem alookup_aset_ne {α : Type} (l : List (String × α)) (k k' : String) (v : α)
    (h : k ≠ k') : alookup (aset l k v) k' = alookup l k' := by
  induction l with
  | nil => simp [aset, alookup, h]
  | cons p rest ih =>
    obtain ⟨a, b⟩ := p
    by_cases hp : a = k
    · subst hp; simp [aset, alookup, h]
    · by_cases ha : a = k'
      · simp [aset, hp, alookup, ha, Ne.symm h]
      · simp [aset, hp, alookup, ha, ih]

/-- Folding the formset write-back over configurations that never mention
a relation name leaves that name's collection lookup unchanged. -/
theorem bindFold_preserves_unconfigured
    (ms : ModelSpec) (data : Submission) (inst : Root) (name : String) :
    ∀ (cfgs : List RelConfig) (acc : List (String × Collection)),
      name ∉ cfgs.map RelConfig.relation →
      alookup (cfgs.foldl (bindStep ms data inst) acc) name = alookup acc name := by
  intro cfgs
  induction cfgs with
  | nil => intro acc _; rfl
  | cons cfg rest ih =>
    intro acc h
    simp only [List.map_cons, List.mem_cons] at h
    push_neg at h
    rw [List.foldl_cons, ih _ h.2]
    unfold bindStep
    cases relSpecFor ms cfg.relation with
    | none => rfl
    | some rs => exact alookup_aset_ne _ _ _ _ (Ne.symm h.1)

/-- C7: a relation not listed in the binding configuration (omitted from
an explicit formsets list, or named in the exclusion list) has no nested
formset, never appears on the rendered form surface, and saving the form
leaves its collection untouched. -/
theorem c7_unconfigured_relation_excluded
    (ms : ModelSpec) (meta : FormMeta) (data : Submission) (inst : Root) (name : String)
    (h : (∃ cfgs, meta.formsets = some cfgs ∧ name ∉ cfgs.map RelConfig.relation) ∨
         (meta.formsets = none ∧
           ∃ ex, meta.excludeFormsets = some ex ∧ name ∈ ex)) :
    name ∉ (configuredRelations ms meta).map RelConfig.relation ∧
    name ∉ renderedRelationNames ms meta ∧
    relsGet (applyForm ms meta data inst) name = relsGet inst name := by
  have hnot : name ∉ (configuredRelations ms meta).map RelConfig.relation := by
    rcases h with ⟨cfgs, hf, hni⟩ | ⟨hf, ex, hex, hmem⟩
    · rw [configuredRelations, hf]; exact hni
    · rw [configuredRelations, hf, hex]
      intro hcontra
      simp only [List.mem_map, List.mem_filterMap] at hcontra
      rcases hcontra with ⟨c, ⟨r, _hr, hcond⟩, hcn⟩
      by_cases hrex : r.name ∈ ex
      · rw [if_pos hrex] at hcond; cases hcond
      · rw [if_neg hrex] at hcond
        cases hcond
        have h3 : r.name = name := hcn
        exact hrex (h3.symm ▸ hmem)
  have hrend : name ∉ renderedRelationNames ms meta := by
    rw [renderedRelationNames]; exact hnot
  refine ⟨hnot, hrend, ?_⟩
  show relsGet (applyForm ms meta data inst) name = relsGet inst name
  unfold applyForm relsGet
  simp only []
  rw [bindFold_preserves_unconfigured ms data inst name _ _ hnot]

/-- A binding configuration declaring only the `members` relation. -/
def c7meta : FormMeta :=
  ⟨["name"], some [mkRelConfig "members"], none⟩

/-- C7 witness: the `albums` relation, absent from the explicit formsets
list, is unconfigured, unrendered, and untouched by the form's save. -/
theorem c7_unconfigured_relation_excluded_witness :
    "albums" ∉ (configuredRelations bandModel c7meta).map RelConfig.relation ∧
    "albums" ∉ renderedRelationNames bandModel c7meta ∧
    relsGet (applyForm bandModel c7meta c2data c2inst) "albums" =
      relsGet c2inst "albums" :=
  c7_unconfigured_relation_excluded bandModel c7meta c2data c2inst "albums"
    (Or.inl ⟨[mkRelConfig "members"], rfl, by decide⟩)

/-- Unfolding one submission keyword argument through the opt-in
propagation filter. -/
theorem childFormKwargs_cons (cfg : RelConfig) (kv : String × String)
    (rest : List (String × String)) :
    childFormKwargs cfg (kv :: rest) =
      if kv.1 ∈ cfg.inheritKwargs then kv :: childFormKwargs cfg rest
      else childFormKwargs cfg rest := by
  simp [childFormKwargs, List.filter_cons]

/-- C8: a top-level constructor keyword argument reaches a relation's
nested forms exactly when its name is listed in that relation's
inherit list; under the default configuration no keyword argument
propagates at all. -/
theorem c8_kwarg_propagation_opt_in
    (cfg : RelConfig) (kwargs : List (String × String)) (k name : String) :
    alookup (childFormKwargs cfg kwargs) k =
      (if k ∈ cfg.inheritKwargs then alookup kwargs k else none) ∧
    childFormKwargs (mkRelConfig name) kwargs = [] := by
  constructor
  · induction kwargs with
    | nil => simp [childFormKwargs, alookup, ite_self]
    | cons kv rest ih =>
      obtain ⟨a, b⟩ := kv
      by_cases hkv : a ∈ cfg.inheritKwargs
      · by_cases hke : a = k
        · subst hke
          simp [childFormKwargs_cons, hkv, alookup]
        · simp [childFormKwargs_cons, hkv, alookup, hke, ih]
      · by_cases hke : a = k
        · subst hke
          simp [childFormKwargs_cons, hkv, alookup, ih]
        · simp [childFormKwargs_cons, hkv, alookup, hke, ih]
  · simp [childFormKwargs, mkRelConfig]

/-- Processing a blank extra row contributes nothing to the merge. -/
theorem bindRows_cons_blank (fs : List FieldSpec) (existing : List Child)
    (r : SubmittedRow) (rest : List SubmittedRow) (h : r.isBlank = true) :
    bindRows fs existing (r :: rest) = bindRows fs existing rest := by
  cases hb : bindRows fs existing rest with
  | mk l ds => simp [bindRows, hb, h]

/-- C9: a submitted row that is all blank and carries no identity is
ignored wherever it sits in the submission: the merged listing and the
staged deletions are those of the submission without it, and the row
passes validation. -/
theorem c9_blank_identityless_row_ignored
    (fs : List FieldSpec) (existing : List Child)
    (pre post : List SubmittedRow) (r : SubmittedRow)
    (h : r.isBlank = true) :
    bindRows fs existing (pre ++ r :: post) = bindRows fs existing (pre ++ post) ∧
    rowValid fs r = true := by
  constructor
  · induction pre with
    | nil => simpa using bindRows_cons_blank fs existing r post h
    | cons a rest ih => simp only [List.cons_append, bindRows, List.append_eq, ih]
  · simp [rowValid, h]

/-- C9 witness: a blank identity-less extra row appended to an empty
submission changes nothing and validates. -/
theorem c9_blank_identityless_row_ignored_witness :
    bindRows [⟨"name", .str, true⟩] [] [⟨[("name", "")], none, false, none⟩] =
      bindRows [⟨"name", .str, true⟩] [] [] ∧
    rowValid [⟨"name", .str, true⟩] ⟨[("name", "")], none, false, none⟩ = true :=
  c9_blank_identityless_row_ignored [⟨"name", .str, true⟩] [] [] []
    ⟨[("name", "")], none, false, none⟩ rfl

/-- C10: with neither an explicit formsets list nor an exclusion list
declared, the form is built with no nested formsets at all — whatever
child relations the parent model declares — and the rendered surface
shows only the top-level scalar fields. -/
theorem c10_no_configuration_no_formsets (ms : ModelSpec) (fields : List String) :
    configuredRelations ms ⟨fields, none, none⟩ = [] ∧
    renderedKeys ms ⟨fields, none, none⟩ = fields := by
  simp [configuredRelations, renderedKeys]

end Modelcluster
